import Mathlib

/-!
Shallow embedding of `dakota_driver/driver.py` (OpenMDAO DAKOTA drivers).

The drivers assemble a textual DAKOTA input deck (sections `strategy`,
`method`, `model`, `variables`, `responses`, each a list of lines) and
implement `dakota_callback`, the per-evaluation bridge DAKOTA calls back
into.  Python floats are modelled as `Rat`; numeric rendering (`str(x)`,
`'%s' % x`) is modelled by `toString`, which both the embedding and the
statements share, so no decimal-formatting detail is proof-relevant.
Python exceptions are modelled by an error type returned in `Except`;
OpenMDAO's `raise_exception` prefixes the driver pathname to the message,
which is dropped here (messages are the literals from the source).
-/

/-- Python exceptions raised by the driver code. -/
inductive PyErr where
  | valueError (msg : String)
  | notImplementedError (msg : String)
  | indexError
deriving DecidableEq, Repr

/-- One scalar parameter as exposed by the `HasParameters` delegate, in
declaration order after flattening grouped/array parameters: a name, bounds,
and an optional start value. -/
structure Parameter where
  name : String
  low : Rat
  high : Rat
  start : Option Rat
deriving DecidableEq, Repr

/-- The five sections of a `DakotaInput` (from the external `dakota`
module): each section is an ordered list of text lines. -/
structure DakotaInput where
  strategy : List String
  method : List String
  model : List String
  vars : List String       -- the `variables` section (`variables` is a Lean keyword)
  responses : List String
deriving DecidableEq, Repr

/-- State of a `DakotaBase` driver relevant to deck assembly: its
`DakotaInput`, the declared parameters (in declaration order), the
objective expression keys, and the traits used when assembling input. -/
structure DriverState where
  input : DakotaInput
  parameters : List Parameter
  objectives : List String
  output : String
  stdout : String
  stderr : String
  tabular_graphics_data : Bool
deriving DecidableEq, Repr

/-- `DakotaBase.__init__`: baseline input (`interface` untouched). -/
def DakotaBase.initialInput : DakotaInput :=
  { strategy := ["single_method"]
    method := []
    model := ["single"]
    vars := []
    responses := [] }

/-- `DakotaBase.check_config` (driver.py lines 62-72): reject an empty
parameter set, then an empty objective list, with `ValueError`s. -/
def DakotaBase.check_config (parameters : List Parameter)
    (objectives : List String) : Except PyErr Unit :=
  if parameters.isEmpty then
    .error (.valueError "No parameters, run aborted")
  else if objectives.isEmpty then
    .error (.valueError "No objectives, run aborted")
  else
    .ok ()

/-! ### Substring machinery for the `tabular_graphics_data` toggle

Python's `'tabular_graphics_data' in line` and
`line.replace('tabular_graphics_data', '')` are modelled on `List Char`
with structurally recursive, fuel-driven definitions (fuel = remaining
length, which suffices since each step consumes at least one character),
so every concrete evaluation reduces by `decide`/`rfl`. -/

/-- Does `pat` occur at the head of `s`? -/
def matchHead : List Char → List Char → Bool
  | [], _ => true
  | _ :: _, [] => false
  | a :: as, b :: bs => a == b && matchHead as bs

/-- Does `pat` occur anywhere in `s` (Python `pat in s`, nonempty `pat`)? -/
def charsContain (pat : List Char) : List Char → Bool
  | [] => false
  | c :: rest => matchHead pat (c :: rest) || charsContain pat rest

/-- Replace every non-overlapping occurrence of `pat` (nonempty) in `s` by
`rep`, left to right (Python `s.replace(pat, rep)`). -/
def charsReplace (pat rep : List Char) : Nat → List Char → List Char
  | _, [] => []
  | 0, s => s
  | fuel + 1, c :: rest =>
    if matchHead pat (c :: rest) then
      rep ++ charsReplace pat rep fuel ((c :: rest).drop pat.length)
    else
      c :: charsReplace pat rep fuel rest

/-- Count the non-overlapping occurrences of `pat` in `s`, left to right. -/
def charsOcc (pat : List Char) : Nat → List Char → Nat
  | _, [] => 0
  | 0, _ => 0
  | fuel + 1, c :: rest =>
    if matchHead pat (c :: rest) then
      1 + charsOcc pat fuel ((c :: rest).drop pat.length)
    else
      charsOcc pat fuel rest

/-- The keyword toggled in the `strategy` section. -/
def tgd : List Char := "tabular_graphics_data".data

/-- `'tabular_graphics_data' in line`. -/
def lineHasTGD (line : String) : Bool := charsContain tgd line.data

/-- `line.replace('tabular_graphics_data', '')`. -/
def stripTGD (line : String) : String :=
  ⟨charsReplace tgd [] line.data.length line.data⟩

/-- Occurrences of the keyword in one line. -/
def occTGD (line : String) : Nat := charsOcc tgd line.data.length line.data

/-- Total occurrences of the keyword in a section. -/
def countTGD (lines : List String) : Nat := (lines.map occTGD).sum

/-- The `for ... else` scan of `run_dakota` (driver.py lines 125-133):
find the first strategy line containing the keyword; when the flag is off,
strip the keyword from that line; either way stop there.  `none` means no
line contained the keyword. -/
def scanStrategy (flag : Bool) : List String → Option (List String)
  | [] => none
  | line :: rest =>
    if lineHasTGD line then
      some ((if flag then line else stripTGD line) :: rest)
    else
      match scanStrategy flag rest with
      | some rest2 => some (line :: rest2)
      | none => none

/-- The complete strategy update of `run_dakota`: when no line contained the
keyword and the flag is on, append the keyword as a new line. -/
def updateStrategy (flag : Bool) (strategy : List String) : List String :=
  match scanStrategy flag strategy with
  | some s => s
  | none => if flag then strategy ++ ["tabular_graphics_data"] else strategy

/-- The effect on the `strategy` section of successive `run_dakota` calls
with the given sequence of `tabular_graphics_data` flag values, starting
from the baseline strategy of `DakotaBase.__init__`. -/
def runStrategy (flags : List Bool) : List String :=
  flags.foldl (fun s f => updateStrategy f s) DakotaBase.initialInput.strategy

/-- Sanity check: the first enabled run appends the keyword line. -/
theorem updateStrategy_first_enable : updateStrategy true ["single_method"] =
    ["single_method", "tabular_graphics_data"] := by decide

/-- Sanity check: disabling strips the keyword, leaving an emptied line. -/
theorem updateStrategy_disable :
    updateStrategy false ["single_method", "tabular_graphics_data"] =
    ["single_method", ""] := by decide

/-- Sanity check: on, off, on again yields a single keyword occurrence. -/
theorem runStrategy_toggle_twice :
    countTGD (runStrategy [true, false, true]) = 1 := by decide

/-! ### Deck assembly -/

/-- Python `'%r' % name` for an identifier string: individually quoted. -/
def quoteName (name : String) : String := "'" ++ name ++ "'"

/-- Modelled from the spec: the OpenMDAO `HasParameters` accessor
`eval_parameters` (missing from the sources; only its caller
`set_variables` is present).  Per the spec's data model, a parameter's
start value "defaults to midpoint of bounds if absent". -/
def eval_parameters (parameters : List Parameter) : List Rat :=
  parameters.map fun p => p.start.getD ((p.low + p.high) / 2)

/-- `get_lower_bounds(dtype=None)`: the lower bounds in declaration order. -/
def get_lower_bounds (parameters : List Parameter) : List Rat :=
  parameters.map Parameter.low

/-- `get_upper_bounds(dtype=None)`: the upper bounds in declaration order. -/
def get_upper_bounds (parameters : List Parameter) : List Rat :=
  parameters.map Parameter.high

/-- `DakotaBase.set_variables` (driver.py lines 83-110): assemble the
`variables` section from the parameter set. -/
def DakotaBase.set_variables (st : DriverState) (need_start : Bool)
    (uniform : Bool := false) : DriverState :=
  let lbounds := (get_lower_bounds st.parameters).map toString
  let ubounds := (get_upper_bounds st.parameters).map toString
  let names := st.parameters.map fun p => quoteName p.name
  let head :=
    if uniform then
      ["uniform_uncertain = " ++ toString st.parameters.length]
    else
      ["continuous_design = " ++ toString st.parameters.length]
  let head :=
    if need_start then
      head ++ ["    initial_point " ++
        String.intercalate " " ((eval_parameters st.parameters).map toString)]
    else
      head
  { st with input := { st.input with vars := head ++ [
      "    lower_bounds  " ++ String.intercalate " " lbounds,
      "    upper_bounds  " ++ String.intercalate " " ubounds,
      "    descriptors   " ++ String.intercalate " " names] } }

/-- The external call made on success: `write_input(infile)` followed by
`run_dakota(infile, ...)` — the deck that is written and the redirection
targets.  A `run_dakota` that returns `.error` performs neither. -/
structure EngineInvocation where
  deck : DakotaInput
  stdout : String
  stderr : String
deriving DecidableEq, Repr

/-- `DakotaBase.run_dakota` (driver.py lines 112-140): validate the three
assembled sections in order, toggle `tabular_graphics_data` in the
`strategy` section, then write the input deck and invoke DAKOTA.  Errors
are raised before the deck is written or the engine invoked. -/
def DakotaBase.run_dakota (st : DriverState) :
    Except PyErr (DriverState × EngineInvocation) :=
  if st.input.method.isEmpty then
    .error (.valueError "Method not set")
  else if st.input.vars.isEmpty then
    .error (.valueError "Variables not set")
  else if st.input.responses.isEmpty then
    .error (.valueError "Responses not set")
  else
    let st := { st with input := { st.input with
      strategy := updateStrategy st.tabular_graphics_data st.input.strategy } }
    .ok (st, { deck := st.input, stdout := st.stdout, stderr := st.stderr })

/-- Traits of a `DakotaCONMIN` driver beyond the base state, plus the
inequality-constraint expression keys of its `HasIneqConstraints`
delegate. -/
structure ConminState where
  base : DriverState
  ineq_constraints : List String
  max_iterations : Int
  max_function_evaluations : Int
  convergence_tolerance : Rat
  constraint_tolerance : Rat
  fd_gradient_step_size : Rat
  interval_type : String
deriving DecidableEq, Repr

/-- `DakotaCONMIN.configure_input` (driver.py lines 240-269). -/
def DakotaCONMIN.configure_input (s : ConminState) : DriverState :=
  let method := if s.ineq_constraints.isEmpty then "conmin_frcg" else "conmin_mfd"
  let methodLines := [
    method,
    "    output = " ++ s.base.output,
    "    max_iterations = " ++ toString s.max_iterations,
    "    max_function_evaluations = " ++ toString s.max_function_evaluations,
    "    convergence_tolerance = " ++ toString s.convergence_tolerance] ++
    (if s.ineq_constraints.isEmpty then [] else
      ["    constraint_tolerance = " ++ toString s.constraint_tolerance])
  let st := { s.base with input := { s.base.input with method := methodLines } }
  let st := DakotaBase.set_variables st true
  { st with input := { st.input with responses :=
      ["objective_functions = " ++ toString s.base.objectives.length] ++
      (if s.ineq_constraints.isEmpty then [] else
        ["nonlinear_inequality_constraints = " ++
          toString s.ineq_constraints.length]) ++
      ["numerical_gradients",
       "    method_source dakota",
       "    interval_type " ++ s.interval_type,
       "    fd_gradient_step_size = " ++ toString s.fd_gradient_step_size,
       "    no_hessians"] } }

/-- `DakotaMultidimStudy.configure_input` (driver.py lines 278-298):
check the partition count against the parameter count, then assemble. -/
def DakotaMultidimStudy.configure_input (st : DriverState)
    (partitions : List Int) : Except PyErr DriverState :=
  if partitions.length ≠ st.parameters.length then
    .error (.valueError ("#partitions (" ++ toString partitions.length ++
      ") != #parameters (" ++ toString st.parameters.length ++ ")"))
  else
    let st := { st with input := { st.input with method := [
      "multidim_parameter_study",
      "    output = " ++ st.output,
      "    partitions = " ++ String.intercalate " " (partitions.map toString)] } }
    let st := DakotaBase.set_variables st false
    .ok { st with input := { st.input with responses := [
      "objective_functions = " ++ toString st.objectives.length,
      "no_gradients",
      "no_hessians"] } }

/-- `DakotaVectorStudy.configure_input` (driver.py lines 309-331):
check the final-point length against the parameter count, then assemble. -/
def DakotaVectorStudy.configure_input (st : DriverState)
    (final_point : List Rat) (num_steps : Int) : Except PyErr DriverState :=
  if final_point.length ≠ st.parameters.length then
    .error (.valueError ("#final_point (" ++ toString final_point.length ++
      ") != #parameters (" ++ toString st.parameters.length ++ ")"))
  else
    let st := { st with input := { st.input with method := [
      "output = " ++ st.output,
      "vector_parameter_study",
      "    final_point = " ++ String.intercalate " " (final_point.map toString),
      "    num_steps = " ++ toString num_steps] } }
    let st := DakotaBase.set_variables st false
    .ok { st with input := { st.input with responses := [
      "objective_functions = " ++ toString st.objectives.length,
      "no_gradients",
      "no_hessians"] } }

/-- `Driver.execute` for the multidim study: `configure_input` then
`run_dakota` — an engine invocation exists only when both succeed. -/
def DakotaMultidimStudy.execute (st : DriverState) (partitions : List Int) :
    Except PyErr (DriverState × EngineInvocation) :=
  (DakotaMultidimStudy.configure_input st partitions).bind DakotaBase.run_dakota

/-- `Driver.execute` for the vector study. -/
def DakotaVectorStudy.execute (st : DriverState) (final_point : List Rat)
    (num_steps : Int) : Except PyErr (DriverState × EngineInvocation) :=
  (DakotaVectorStudy.configure_input st final_point num_steps).bind
    DakotaBase.run_dakota

/-! ### Evaluation callback bridge -/

/-- The sense of a relational constraint expression. -/
inductive Comparator where
  | lt
  | le
  | gt
  | ge
  | eq
deriving DecidableEq, Repr

/-- A relational constraint expression over a host-model state `M`:
left-hand side, right-hand side and comparison sense. -/
structure ConstraintExpr (M : Type) where
  lhs : M → Rat
  rhs : M → Rat
  comparator : Comparator

/-- Modelled from the spec: the OpenMDAO constraint-expression evaluator
(`Constraint.evaluate`, missing from the sources; `dakota_callback` only
calls `expr.evaluate(self.parent)`).  Per the spec, a relational constraint
is normalized to a signed residual: `rhs - lhs` for a "greater than"
sense, `lhs - rhs` otherwise, so that a residual that is zero or negative
denotes a satisfied constraint. -/
def ConstraintExpr.evaluate {M : Type} (c : ConstraintExpr M) (m : M) : Rat :=
  match c.comparator with
  | .gt | .ge => c.rhs m - c.lhs m
  | _ => c.lhs m - c.rhs m

/-- Everything `dakota_callback` reads from its driver object: objective
evaluators, equality- and inequality-constraint expressions (via the
optional `get_eq_constraints` / `get_ineq_constraints` delegates, empty
when absent), and the host model evaluation `set_parameters(cv)` followed
by `run_iteration()`, abstracted as a map from `cv` to the evaluated model
state the expression evaluators then read. -/
structure CallbackData (M : Type) where
  objectives : List (M → Rat)
  eq_constraints : List (ConstraintExpr M)
  ineq_constraints : List (ConstraintExpr M)
  runIteration : List Rat → M

/-- driver.py lines 187-191: the expression list, in declared response
order — objectives first, then equality constraints, then inequality
constraints. -/
def expressionsOf {M : Type} (d : CallbackData M) : List (M → Rat) :=
  d.objectives ++ d.eq_constraints.map ConstraintExpr.evaluate ++
    d.ineq_constraints.map ConstraintExpr.evaluate

/-- The loop of `dakota_callback` (driver.py lines 193-202): for each
expression in order, look at its `asv` entry; a set bit 0 (`asv[i] & 1`)
appends the evaluated value, a set bit 1 (`asv[i] & 2`) or bit 2
(`asv[i] & 4`) raises `NotImplementedError`, ending the call at once.
Indexing `asv[i]` past its end is Python's `IndexError`. -/
def evalLoop {M : Type} (m : M) :
    List (M → Rat) → List Nat → Except PyErr (List Rat)
  | [], _ => .ok []
  | _ :: _, [] => .error .indexError
  | e :: es, a :: rest =>
    if a &&& 2 ≠ 0 then
      .error (.notImplementedError "Gradients not supported yet")
    else if a &&& 4 ≠ 0 then
      .error (.notImplementedError "Hessians not supported yet")
    else if a &&& 1 ≠ 0 then
      match evalLoop m es rest with
      | .ok vs => .ok (e m :: vs)
      | .error err => .error err
    else
      evalLoop m es rest

/-- The mapping returned by `dakota_callback`: `dict(fns=array(fns))`, a
mapping with the single key `fns` holding the result array. -/
structure DakotaRetval where
  fns : List Rat
deriving DecidableEq, Repr

/-- `DakotaBase.dakota_callback` (driver.py lines 142-206): push `cv` into
the model and run one iteration, then walk the declared expressions
against `asv`. -/
def DakotaBase.dakota_callback {M : Type} (d : CallbackData M)
    (cv : List Rat) (asv : List Nat) : Except PyErr DakotaRetval :=
  (evalLoop (d.runIteration cv) (expressionsOf d) asv).map
    fun fns => { fns := fns }

/-! ### Concrete instances used by witnesses (from the repository's tests) -/

/-- `textbook.x1` from the test suite: bounds 0.5..5.8, start 0.9. -/
def sampleParam : Parameter :=
  { name := "textbook.x1", low := 1/2, high := 29/5, start := some (9/10) }

/-- `textbook.x2` from the test suite, without a start value. -/
def sampleParam2 : Parameter :=
  { name := "textbook.x2", low := -(29/10), high := 29/10, start := none }

/-- A driver state as freshly constructed, with one parameter and one
objective declared. -/
def sampleState : DriverState :=
  { input := DakotaBase.initialInput
    parameters := [sampleParam]
    objectives := ["textbook.f"]
    output := "normal"
    stdout := ""
    stderr := ""
    tabular_graphics_data := false }

/-! ### Claims -/

/-- C5: configuration checking fails with the configuration error
mentioning "No parameters" whenever the parameter set is empty, and with
one mentioning "No objectives" whenever the objective count is zero; an
error return means no run is attempted (`check_config` runs before
`execute`). -/
theorem check_config_rejects_empty (parameters : List Parameter)
    (objectives : List String) :
    (parameters = [] →
      DakotaBase.check_config parameters objectives =
        .error (.valueError ("No parameters" ++ ", run aborted"))) ∧
    (parameters ≠ [] → objectives = [] →
      DakotaBase.check_config parameters objectives =
        .error (.valueError ("No objectives" ++ ", run aborted"))) := by
  constructor
  · intro h
    subst h
    rfl
  · intro h1 h2
    subst h2
    cases parameters with
    | nil => exact absurd rfl h1
    | cons p ps => rfl

/-- Witness for C5 at concrete inputs. -/
theorem check_config_rejects_empty_concrete :
    DakotaBase.check_config [] ["textbook.f"] =
      .error (.valueError ("No parameters" ++ ", run aborted")) ∧
    DakotaBase.check_config [sampleParam] [] =
      .error (.valueError ("No objectives" ++ ", run aborted")) :=
  ⟨(check_config_rejects_empty [] ["textbook.f"]).1 rfl,
   (check_config_rejects_empty [sampleParam] []).2
     (List.cons_ne_nil _ _) rfl⟩

/-- C10: `run_dakota` rejects an empty `method`, `variables` or
`responses` section with the matching `ValueError`, checked in that
order; the error is returned before any `EngineInvocation` is produced,
i.e. before the input file is written or DAKOTA is invoked. -/
theorem run_dakota_section_checks (st : DriverState) :
    (st.input.method = [] →
      DakotaBase.run_dakota st = .error (.valueError "Method not set")) ∧
    (st.input.method ≠ [] → st.input.vars = [] →
      DakotaBase.run_dakota st = .error (.valueError "Variables not set")) ∧
    (st.input.method ≠ [] → st.input.vars ≠ [] → st.input.responses = [] →
      DakotaBase.run_dakota st = .error (.valueError "Responses not set")) := by
  refine ⟨?_, ?_, ?_⟩
  · intro h
    simp [DakotaBase.run_dakota, h]
  · intro h1 h2
    simp [DakotaBase.run_dakota, h1, h2]
  · intro h1 h2 h3
    simp [DakotaBase.run_dakota, h1, h2, h3]

/-- Witness for C10 at concrete inputs. -/
theorem run_dakota_section_checks_concrete :
    DakotaBase.run_dakota sampleState =
      .error (.valueError "Method not set") ∧
    DakotaBase.run_dakota { sampleState with
        input := { DakotaBase.initialInput with method := ["conmin_frcg"] } } =
      .error (.valueError "Variables not set") ∧
    DakotaBase.run_dakota { sampleState with
        input := { DakotaBase.initialInput with
                   method := ["conmin_frcg"]
                   vars := ["continuous_design = 1"] } } =
      .error (.valueError "Responses not set") :=
  ⟨(run_dakota_section_checks sampleState).1 rfl,
   (run_dakota_section_checks _).2.1 (List.cons_ne_nil _ _) rfl,
   (run_dakota_section_checks _).2.2 (List.cons_ne_nil _ _)
     (List.cons_ne_nil _ _) rfl⟩

/-- C4: a multidim study whose partition count differs from the parameter
count, and a vector study whose final-point length differs from the
parameter count, fail in `configure_input` with the respective
configuration error; `execute` therefore returns that error and no
`EngineInvocation` — no external engine call occurs. -/
theorem study_size_mismatch_aborts (stM stV : DriverState)
    (partitions : List Int) (final_point : List Rat) (num_steps : Int)
    (h1 : partitions.length ≠ stM.parameters.length)
    (h2 : final_point.length ≠ stV.parameters.length) :
    DakotaMultidimStudy.execute stM partitions =
      .error (.valueError ("#partitions (" ++ toString partitions.length ++
        ") != #parameters (" ++ toString stM.parameters.length ++ ")")) ∧
    DakotaVectorStudy.execute stV final_point num_steps =
      .error (.valueError ("#final_point (" ++ toString final_point.length ++
        ") != #parameters (" ++ toString stV.parameters.length ++ ")")) := by
  constructor
  · simp [DakotaMultidimStudy.execute, DakotaMultidimStudy.configure_input,
      h1, Except.bind]
  · simp [DakotaVectorStudy.execute, DakotaVectorStudy.configure_input,
      h2, Except.bind]

/-- Witness for C4 at the test suite's failing inputs
(`partitions = [8, 8, 999]`, `final_point = [1.1, 1.3, 999]` against a
single declared parameter). -/
theorem study_size_mismatch_aborts_concrete :
    DakotaMultidimStudy.execute sampleState [8, 8, 999] =
      .error (.valueError ("#partitions (" ++ toString (3 : Nat) ++
        ") != #parameters (" ++ toString (1 : Nat) ++ ")")) ∧
    DakotaVectorStudy.execute sampleState [11/10, 13/10, 999] 10 =
      .error (.valueError ("#final_point (" ++ toString (3 : Nat) ++
        ") != #parameters (" ++ toString (1 : Nat) ++ ")")) :=
  study_size_mismatch_aborts sampleState sampleState [8, 8, 999]
    [11/10, 13/10, 999] 10 (by decide) (by decide)

/-- C7: for every parameter set, the assembled `variables` section ends in
`lower_bounds` / `upper_bounds` / `descriptors` lines whose entry lists
each hold exactly one entry per parameter, in declaration order, with each
descriptor individually quoted. -/
theorem set_variables_section_shape (st : DriverState)
    (need_start uniform : Bool) :
    ∃ head lbounds ubounds names : List String,
      (DakotaBase.set_variables st need_start uniform).input.vars =
        head ++ [
          "    lower_bounds  " ++ String.intercalate " " lbounds,
          "    upper_bounds  " ++ String.intercalate " " ubounds,
          "    descriptors   " ++ String.intercalate " " names] ∧
      lbounds = st.parameters.map (fun p => toString p.low) ∧
      ubounds = st.parameters.map (fun p => toString p.high) ∧
      names = st.parameters.map (fun p => "'" ++ p.name ++ "'") ∧
      lbounds.length = st.parameters.length ∧
      ubounds.length = st.parameters.length ∧
      names.length = st.parameters.length := by
  refine ⟨(if uniform then
      ["uniform_uncertain = " ++ toString st.parameters.length]
    else
      ["continuous_design = " ++ toString st.parameters.length]) ++
    (if need_start then
      ["    initial_point " ++ String.intercalate " "
        ((eval_parameters st.parameters).map toString)]
    else []),
    st.parameters.map (fun p => toString p.low),
    st.parameters.map (fun p => toString p.high),
    st.parameters.map (fun p => "'" ++ p.name ++ "'"),
    ?_, rfl, rfl, rfl, by simp, by simp, by simp⟩
  cases need_start <;> cases uniform <;>
    simp [DakotaBase.set_variables, get_lower_bounds, get_upper_bounds,
      quoteName, List.map_map, Function.comp_def]

/-- C8: when no parameter carries a start value, the `initial_point` line
assembled by `set_variables need_start:=True` lists the midpoint
`(low + high) / 2` of each parameter's bounds, in declaration order. -/
theorem initial_point_midpoint (st : DriverState) (uniform : Bool)
    (h : ∀ p ∈ st.parameters, p.start = none) :
    ("    initial_point " ++ String.intercalate " "
        (st.parameters.map fun p => toString ((p.low + p.high) / 2))) ∈
      (DakotaBase.set_variables st true uniform).input.vars := by
  have hmid : eval_parameters st.parameters =
      st.parameters.map (fun p => (p.low + p.high) / 2) := by
    refine List.map_congr_left fun p hp => ?_
    rw [h p hp]
    rfl
  cases uniform <;>
    simp [DakotaBase.set_variables, hmid, List.map_map, Function.comp_def]

/-- Witness for C8: a two-parameter set with no start values. -/
theorem initial_point_midpoint_concrete :
    ("    initial_point " ++ String.intercalate " "
        (([{ name := "rosenbrock.x[0]", low := -2, high := 2, start := none },
           { name := "rosenbrock.x[1]", low := -2, high := 2, start := none }] :
          List Parameter).map fun p => toString ((p.low + p.high) / 2))) ∈
      (DakotaBase.set_variables { sampleState with parameters :=
        [{ name := "rosenbrock.x[0]", low := -2, high := 2, start := none },
         { name := "rosenbrock.x[1]", low := -2, high := 2, start := none }] }
        true false).input.vars :=
  initial_point_midpoint _ false (by decide)

/-! ### The reachable shapes of the `strategy` section -/

/-- Every strategy section reachable from the baseline by `run_dakota`
updates: the fixed `single_method` line, `k` lines emptied by earlier
keyword removals, and the keyword line when currently enabled. -/
def shapeStrategy (k : Nat) (cur : Bool) : List String :=
  "single_method" ::
    (List.replicate k "" ++ if cur then ["tabular_graphics_data"] else [])

theorem lineHasTGD_empty : lineHasTGD "" = false := by decide

theorem lineHasTGD_single : lineHasTGD "single_method" = false := by decide

theorem lineHasTGD_kw : lineHasTGD "tabular_graphics_data" = true := by decide

theorem stripTGD_kw : stripTGD "tabular_graphics_data" = "" := by decide

/-- Scanning past a block of emptied lines. -/
theorem scanStrategy_replicate (f : Bool) (k : Nat) (rest : List String) :
    scanStrategy f (List.replicate k "" ++ rest) =
      (scanStrategy f rest).map (fun r => List.replicate k "" ++ r) := by
  induction k with
  | zero =>
    simp only [List.replicate, List.nil_append, List.append_nil]
    cases scanStrategy f rest <;> rfl
  | succ n ih =>
    rw [List.replicate_succ, List.cons_append]
    simp only [scanStrategy, lineHasTGD_empty, Bool.false_eq_true, if_false, ih]
    cases scanStrategy f rest <;> simp [List.replicate_succ]

/-- Scanning a run of emptied lines alone finds nothing. -/
theorem scanStrategy_replicate_nil (f : Bool) (k : Nat) :
    scanStrategy f (List.replicate k "") = none := by
  have h := scanStrategy_replicate f k []
  simpa using h

/-- One `run_dakota` update carries a reachable shape to a reachable
shape whose keyword presence equals the current flag. -/
theorem updateStrategy_shape (f : Bool) (k : Nat) (cur : Bool) :
    ∃ k', updateStrategy f (shapeStrategy k cur) = shapeStrategy k' f := by
  cases cur with
  | false =>
    refine ⟨k, ?_⟩
    have hscan : scanStrategy f (shapeStrategy k false) = none := by
      simp [shapeStrategy, scanStrategy, lineHasTGD_single,
        scanStrategy_replicate_nil]
    cases f with
    | false =>
      simp only [updateStrategy, hscan]
      simp [shapeStrategy]
    | true =>
      simp only [updateStrategy, hscan]
      simp [shapeStrategy]
  | true =>
    have hscan : scanStrategy f (shapeStrategy k true) =
        some ("single_method" :: (List.replicate k "" ++
          [if f then "tabular_graphics_data" else ""])) := by
      simp [shapeStrategy, scanStrategy, lineHasTGD_single,
        scanStrategy_replicate, lineHasTGD_kw, stripTGD_kw]
    cases f with
    | false =>
      refine ⟨k + 1, ?_⟩
      simp only [updateStrategy, hscan]
      simp [shapeStrategy, List.replicate_succ']
    | true =>
      refine ⟨k, ?_⟩
      simp only [updateStrategy, hscan]
      simp [shapeStrategy]

/-- Folding a flag sequence over a reachable shape lands cur a reachable
shape whose keyword presence is the last flag (or the inherited one). -/
theorem foldl_updateStrategy_shape (flags : List Bool) :
    ∀ (k : Nat) (cur : Bool),
      ∃ k', List.foldl (fun s f => updateStrategy f s) (shapeStrategy k cur)
          flags =
        shapeStrategy k' (List.foldl (fun _ f => f) cur flags) := by
  induction flags with
  | nil => exact fun k cur => ⟨k, rfl⟩
  | cons f fs ih =>
    intro k cur
    obtain ⟨k1, h1⟩ := updateStrategy_shape f k cur
    obtain ⟨k2, h2⟩ := ih k1 f
    exact ⟨k2, by simp only [List.foldl_cons, h1, h2]⟩

theorem occTGD_empty : occTGD "" = 0 := by decide

theorem occTGD_single : occTGD "single_method" = 0 := by decide

theorem occTGD_kw : occTGD "tabular_graphics_data" = 1 := by decide

/-- A reachable shape holds the keyword exactly when it is cur. -/
theorem countTGD_shape (k : Nat) (cur : Bool) :
    countTGD (shapeStrategy k cur) = if cur then 1 else 0 := by
  cases cur <;>
    simp [countTGD, shapeStrategy, occTGD_empty, occTGD_single, occTGD_kw,
      List.map_replicate, List.sum_replicate]

/-- C9: over any sequence of `run_dakota` calls from the baseline
strategy, the `tabular_graphics_data` keyword never occurs more than once
in the strategy section, and a run with the option enabled followed by a
run with it disabled leaves the section with no occurrence at all. -/
theorem tabular_graphics_toggle (flags : List Bool) :
    countTGD (runStrategy flags) ≤ 1 ∧
    countTGD (runStrategy (flags ++ [true, false])) = 0 := by
  have hbase : DakotaBase.initialInput.strategy = shapeStrategy 0 false := rfl
  constructor
  · obtain ⟨k', h⟩ := foldl_updateStrategy_shape flags 0 false
    rw [runStrategy, hbase, h, countTGD_shape]
    split <;> omega
  · obtain ⟨k', h⟩ := foldl_updateStrategy_shape (flags ++ [true, false]) 0
      false
    rw [runStrategy, hbase, h, countTGD_shape]
    simp

/-- When no `asv` entry requests a derivative, the loop returns exactly
the values of the expressions whose entry has bit 0 set, in order. -/
theorem evalLoop_no_deriv {M : Type} (m : M) (exprs : List (M → Rat)) :
    ∀ asv : List Nat, asv.length = exprs.length →
      (∀ a ∈ asv, a &&& 2 = 0 ∧ a &&& 4 = 0) →
      evalLoop m exprs asv = .ok ((exprs.zip asv).filterMap
        (fun p => if p.2 &&& 1 ≠ 0 then some (p.1 m) else none)) := by
  induction exprs with
  | nil => intro asv _ _; rfl
  | cons e es ih =>
    intro asv h1 h2
    cases asv with
    | nil => simp at h1
    | cons a rest =>
      obtain ⟨ha2, ha4⟩ := h2 a (List.mem_cons_self a rest)
      have hrest := fun b hb => h2 b (List.mem_cons_of_mem a hb)
      have h1' : rest.length = es.length := by simpa using h1
      by_cases hb : a % 2 = 1 <;>
        simp [evalLoop, ha2, ha4, hb, ih rest h1' hrest]

/-- The selected-value list has exactly one entry per `asv` entry with
bit 0 set. -/
theorem filterMap_zip_length {M : Type} (m : M) (exprs : List (M → Rat)) :
    ∀ asv : List Nat, asv.length = exprs.length →
      ((exprs.zip asv).filterMap
        (fun p => if p.2 &&& 1 ≠ 0 then some (p.1 m) else none)).length =
      (asv.filter (fun a => a &&& 1 != 0)).length := by
  induction exprs with
  | nil =>
    intro asv h1
    have hnil : asv = [] := List.eq_nil_of_length_eq_zero (by simpa using h1)
    subst hnil
    rfl
  | cons e es ih =>
    intro asv h1
    cases asv with
    | nil => simp at h1
    | cons a rest =>
      have h1' : rest.length = es.length := by simpa using h1
      have hih := ih rest h1'
      simp only [ne_eq] at hih
      by_cases hb : a % 2 = 1 <;> simp [hb, List.filter_cons] <;>
        simpa using hih

/-- C1: when no derivative bit is set, `dakota_callback` returns a
mapping with the single key `fns` whose array holds exactly one entry per
response whose `asv` entry has bit 0 set, in declared response order
(objectives first, then constraints); responses without bit 0 contribute
no entry. -/
theorem dakota_callback_fns (M : Type) (d : CallbackData M) (cv : List Rat)
    (asv : List Nat)
    (hlen : asv.length = (expressionsOf d).length)
    (hbits : ∀ a ∈ asv, a &&& 2 = 0 ∧ a &&& 4 = 0) :
    DakotaBase.dakota_callback d cv asv = .ok { fns :=
      (((expressionsOf d).zip asv).filterMap
        (fun p => if p.2 &&& 1 ≠ 0 then some (p.1 (d.runIteration cv))
                  else none)) } ∧
    (((expressionsOf d).zip asv).filterMap
      (fun p => if p.2 &&& 1 ≠ 0 then some (p.1 (d.runIteration cv))
                else none)).length =
      (asv.filter (fun a => a &&& 1 != 0)).length := by
  constructor
  · unfold DakotaBase.dakota_callback
    rw [evalLoop_no_deriv (d.runIteration cv) (expressionsOf d) asv hlen
      hbits]
    rfl
  · exact filterMap_zip_length (d.runIteration cv) (expressionsOf d) asv hlen

/-- A concrete `dakota_callback` environment: one objective returning 3
and one inequality constraint `1/4 <= 0`, over a trivial model state. -/
def sampleCallback : CallbackData Unit :=
  { objectives := [fun _ => 3]
    eq_constraints := []
    ineq_constraints := [{ lhs := fun _ => 1/4, rhs := fun _ => 0,
                           comparator := .le }]
    runIteration := fun _ => () }

/-- Witness for C1: `asv = [1, 0]` selects only the objective. -/
theorem dakota_callback_fns_concrete :
    DakotaBase.dakota_callback sampleCallback [] [1, 0] =
      .ok { fns := [3] } := by
  have h := (dakota_callback_fns Unit sampleCallback [] [1, 0] rfl
    (by decide)).1
  simpa [sampleCallback, expressionsOf, ConstraintExpr.evaluate] using h

/-- When every `asv` entry before position `i` carries no derivative bit
and entry `i` does, the loop aborts with the matching
`NotImplementedError`, whatever expressions and entries follow. -/
theorem evalLoop_deriv {M : Type} (m : M) :
    ∀ (exprs : List (M → Rat)) (front suf : List Nat) (a : Nat),
      front.length < exprs.length →
      (∀ b ∈ front, b &&& 2 = 0 ∧ b &&& 4 = 0) →
      (a &&& 2 ≠ 0 ∨ a &&& 4 ≠ 0) →
      evalLoop m exprs (front ++ a :: suf) = .error (.notImplementedError
        (if a &&& 2 ≠ 0 then "Gradients not supported yet"
         else "Hessians not supported yet")) := by
  intro exprs
  induction exprs with
  | nil => intro front suf a hl _ _; simp at hl
  | cons e es ih =>
    intro front suf a hl hfront ha
    cases front with
    | nil =>
      by_cases h2 : a &&& 2 ≠ 0
      · simp [evalLoop, h2]
      · have h4 : a &&& 4 ≠ 0 := ha.resolve_left h2
        simp only [ne_eq, not_not] at h2
        simp [evalLoop, h2, h4]
    | cons b front2 =>
      obtain ⟨hb2, hb4⟩ := hfront b (List.mem_cons_self b front2)
      have hfront2 := fun x hx => hfront x (List.mem_cons_of_mem b hx)
      have hl2 : front2.length < es.length := by simpa using hl
      have hrec := ih front2 suf a hl2 hfront2 ha
      by_cases hb1 : b % 2 = 1 <;>
        simp [evalLoop, hb2, hb4, hb1, hrec]

/-- C2: when some response's `asv` entry has bit 1 (gradient) or bit 2
(Hessian) set — entries before it carrying no derivative bits —
`dakota_callback` raises `NotImplementedError` with the matching message,
and the result does not depend on the entries after the offending one
(`suf` is universally quantified): no later response is evaluated. -/
theorem dakota_callback_deriv_abort (M : Type) (d : CallbackData M)
    (cv : List Rat) (front suf : List Nat) (a : Nat)
    (hlen : (front ++ a :: suf).length = (expressionsOf d).length)
    (hfront : ∀ b ∈ front, b &&& 2 = 0 ∧ b &&& 4 = 0)
    (ha : a &&& 2 ≠ 0 ∨ a &&& 4 ≠ 0) :
    DakotaBase.dakota_callback d cv (front ++ a :: suf) =
      .error (.notImplementedError
        (if a &&& 2 ≠ 0 then "Gradients not supported yet"
         else "Hessians not supported yet")) := by
  have hl : front.length < (expressionsOf d).length := by
    simp only [List.length_append, List.length_cons] at hlen
    omega
  unfold DakotaBase.dakota_callback
  rw [evalLoop_deriv (d.runIteration cv) (expressionsOf d) front suf a hl
    hfront ha]
  rfl

/-- Witness for C2: `asv = [1, 2]` — a gradient request on the second
response aborts the callback. -/
theorem dakota_callback_deriv_abort_concrete :
    DakotaBase.dakota_callback sampleCallback [] [1, 2] =
      .error (.notImplementedError "Gradients not supported yet") := by
  have h := dakota_callback_deriv_abort Unit sampleCallback [] [1] [] 2
    rfl (by decide) (Or.inl (by decide))
  simpa using h

/-- An all-bit-0 request returns every expression's value in order. -/
theorem evalLoop_all_ones {M : Type} (m : M) (exprs : List (M → Rat)) :
    evalLoop m exprs (List.replicate exprs.length 1) =
      .ok (exprs.map fun e => e m) := by
  induction exprs with
  | nil => rfl
  | cons e es ih =>
    simp [List.replicate_succ, evalLoop, ih]

/-- C3: with every response value requested, the entries appended for
constraint expressions are the signed residuals — `rhs - lhs` for a
"greater than" sense, `lhs - rhs` otherwise — and for the non-strict
senses a residual that is zero or negative is equivalent to the
constraint being satisfied. -/
theorem constraint_residual_normalization {M : Type} (d : CallbackData M)
    (cv : List Rat) :
    (DakotaBase.dakota_callback d cv
        (List.replicate (expressionsOf d).length 1) =
      .ok { fns := (d.objectives.map (fun f => f (d.runIteration cv)) ++
        ((d.eq_constraints ++ d.ineq_constraints).map fun c =>
          match c.comparator with
          | .gt | .ge =>
            c.rhs (d.runIteration cv) - c.lhs (d.runIteration cv)
          | _ =>
            c.lhs (d.runIteration cv) - c.rhs (d.runIteration cv))) }) ∧
    (∀ (c : ConstraintExpr M) (m : M),
      (c.comparator = .le → (c.evaluate m ≤ 0 ↔ c.lhs m ≤ c.rhs m)) ∧
      (c.comparator = .ge → (c.evaluate m ≤ 0 ↔ c.rhs m ≤ c.lhs m))) := by
  constructor
  · unfold DakotaBase.dakota_callback
    rw [evalLoop_all_ones (d.runIteration cv) (expressionsOf d)]
    simp [Except.map, expressionsOf, List.map_append, List.map_map,
      Function.comp_def, ConstraintExpr.evaluate]
  · intro c m
    constructor <;> intro hc <;>
      simp [ConstraintExpr.evaluate, hc, sub_nonpos]

/-- Witness for C3: the objective value and the `<=` residual
`lhs - rhs = 1/4 - 0` are returned in order. -/
theorem constraint_residual_normalization_concrete :
    DakotaBase.dakota_callback sampleCallback []
      (List.replicate (expressionsOf sampleCallback).length 1) =
      .ok { fns := [3, 1/4] } := by
  have h := (constraint_residual_normalization sampleCallback []).1
  simpa [sampleCallback] using h

/-- Two strings with distinct characters at a common position stay
distinct under any suffixes. -/
theorem append_ne_of_ne_at (p q : String) (i : Nat)
    (hip : i < p.data.length) (hiq : i < q.data.length)
    (hne : p.data[i]? ≠ q.data[i]?) (a b : String) :
    p ++ a ≠ q ++ b := by
  intro hEq
  have hd : p.data ++ a.data = q.data ++ b.data := by
    have h2 := congrArg String.data hEq
    rwa [String.data_append, String.data_append] at h2
  apply hne
  calc p.data[i]? = (p.data ++ a.data)[i]? :=
        (List.getElem?_append_left hip).symm
    _ = (q.data ++ b.data)[i]? := by rw [hd]
    _ = q.data[i]? := List.getElem?_append_left hiq

/-- The `constraint_tolerance` line differs from every other method line
of the CONMIN deck, whatever the rendered trait values. -/
theorem ctol_line_ne (x : Rat) (out : String) (it fe : Int) (conv : Rat) :
    ("    constraint_tolerance = " ++ toString x) ≠ "conmin_frcg" ∧
    ("    constraint_tolerance = " ++ toString x) ≠ "conmin_mfd" ∧
    ("    constraint_tolerance = " ++ toString x) ≠ "    output = " ++ out ∧
    ("    constraint_tolerance = " ++ toString x) ≠
      "    max_iterations = " ++ toString it ∧
    ("    constraint_tolerance = " ++ toString x) ≠
      "    max_function_evaluations = " ++ toString fe ∧
    ("    constraint_tolerance = " ++ toString x) ≠
      "    convergence_tolerance = " ++ toString conv := by
  refine ⟨?_, ?_, ?_, ?_, ?_, ?_⟩
  · have h := append_ne_of_ne_at "    constraint_tolerance = " "conmin_frcg"
      0 (by decide) (by decide) (by decide) (toString x) ""
    simpa using h
  · have h := append_ne_of_ne_at "    constraint_tolerance = " "conmin_mfd"
      0 (by decide) (by decide) (by decide) (toString x) ""
    simpa using h
  · exact append_ne_of_ne_at "    constraint_tolerance = " "    output = "
      4 (by decide) (by decide) (by decide) (toString x) out
  · exact append_ne_of_ne_at "    constraint_tolerance = "
      "    max_iterations = " 4 (by decide) (by decide) (by decide)
      (toString x) (toString it)
  · exact append_ne_of_ne_at "    constraint_tolerance = "
      "    max_function_evaluations = " 4 (by decide) (by decide)
      (by decide) (toString x) (toString fe)
  · exact append_ne_of_ne_at "    constraint_tolerance = "
      "    convergence_tolerance = " 7 (by decide) (by decide) (by decide)
      (toString x) (toString conv)

/-- C6: the assembled CONMIN method section opens with `conmin_mfd`
exactly when inequality constraints are present and `conmin_frcg`
otherwise, and it contains the `constraint_tolerance` line if and only if
inequality constraints are present. -/
theorem conmin_method_selection (s : ConminState) :
    (DakotaCONMIN.configure_input s).input.method.head? =
      some (if s.ineq_constraints.isEmpty then "conmin_frcg"
            else "conmin_mfd") ∧
    (("    constraint_tolerance = " ++ toString s.constraint_tolerance) ∈
        (DakotaCONMIN.configure_input s).input.method ↔
      s.ineq_constraints ≠ []) := by
  obtain ⟨n1, n2, n3, n4, n5, n6⟩ := ctol_line_ne s.constraint_tolerance
    s.base.output s.max_iterations s.max_function_evaluations
    s.convergence_tolerance
  cases hie : s.ineq_constraints with
  | nil =>
    have hm : (DakotaCONMIN.configure_input s).input.method =
        ["conmin_frcg",
         "    output = " ++ s.base.output,
         "    max_iterations = " ++ toString s.max_iterations,
         "    max_function_evaluations = " ++
           toString s.max_function_evaluations,
         "    convergence_tolerance = " ++
           toString s.convergence_tolerance] := by
      simp [DakotaCONMIN.configure_input, DakotaBase.set_variables, hie]
    refine ⟨by rw [hm]; rfl, ?_⟩
    rw [hm]
    apply iff_of_false
    · intro hmem
      simp only [List.mem_cons, List.not_mem_nil, or_false] at hmem
      rcases hmem with h | h | h | h | h
      · exact n1 h
      · exact n3 h
      · exact n4 h
      · exact n5 h
      · exact n6 h
    · simp
  | cons c cs =>
    have hm : (DakotaCONMIN.configure_input s).input.method =
        ["conmin_mfd",
         "    output = " ++ s.base.output,
         "    max_iterations = " ++ toString s.max_iterations,
         "    max_function_evaluations = " ++
           toString s.max_function_evaluations,
         "    convergence_tolerance = " ++ toString s.convergence_tolerance,
         "    constraint_tolerance = " ++
           toString s.constraint_tolerance] := by
      simp [DakotaCONMIN.configure_input, DakotaBase.set_variables, hie]
    refine ⟨by rw [hm]; rfl, ?_⟩
    rw [hm]
    apply iff_of_true
    · simp
    · simp

/-- The `ConstrainedOptimization` test's CONMIN driver configuration. -/
def sampleConmin : ConminState :=
  { base := sampleState
    ineq_constraints := ["g1", "g2"]
    max_iterations := 50
    max_function_evaluations := 1000
    convergence_tolerance := 1/10000
    constraint_tolerance := 1/10000000
    fd_gradient_step_size := 1/10000
    interval_type := "central" }

/-- Witness for C6 at the constrained test configuration. -/
theorem conmin_method_selection_concrete :
    (DakotaCONMIN.configure_input sampleConmin).input.method.head? =
      some (if sampleConmin.ineq_constraints.isEmpty then "conmin_frcg"
            else "conmin_mfd") ∧
    (("    constraint_tolerance = " ++
        toString sampleConmin.constraint_tolerance) ∈
        (DakotaCONMIN.configure_input sampleConmin).input.method ↔
      sampleConmin.ineq_constraints ≠ []) :=
  conmin_method_selection sampleConmin
